import Mathlib

/-!
Verification development for the `fltk-theme` crate (`src/lib.rs`).

The crate is a thin layer over the host GUI toolkit's global styling state.
We embed that state shallowly: the host's palette is a function from a
palette index to an RGB triple, the frame/box registration table is a
function from a box identifier to the identifier of the registered drawing
callback, and each host primitive the crate calls (`app::set_color`,
`app::set_boxtype`-style frame registration, `app::redraw`) is a state
transformer that also logs the call it makes, so that "how many calls, in
which order" is observable in the embedding.  Rust `u8` channel values never
overflow here (they are only copied and stored), so they are modelled as
`Nat`.
-/

set_option autoImplicit false

namespace FltkTheme

/-- One call into the host toolkit made by this crate (spec §6: the layer
calls exactly the "set global palette color at index", "register custom draw
callback for frame/box type N" and "request redraw" primitives). -/
inductive HostCall where
  | setColor (index r g b : Nat)
  | setBoxtype (box drawer : Nat)
  | redraw
  deriving DecidableEq, Repr

/-- The host toolkit's observable global state: the color palette, the
frame/box drawing-callback registration table, the number of redraw requests
received, and the log of calls the crate has made (in order). -/
structure HostState where
  palette : Nat → Nat × Nat × Nat
  boxTable : Nat → Nat
  redraws : Nat
  calls : List HostCall

/-- A concrete initial host state: every palette slot black, every box type
on its builtin drawer `0`, no redraws, empty call log. -/
def initState : HostState :=
  { palette := fun _ => (0, 0, 0), boxTable := fun _ => 0, redraws := 0, calls := [] }

namespace app

/-- Host primitive `app::set_color`: assign RGB to one palette index (an
absolute write, no read-modify-write). -/
def set_color (s : HostState) (index r g b : Nat) : HostState :=
  { s with
    palette := fun j => if j = index then (r, g, b) else s.palette j,
    calls := s.calls ++ [HostCall.setColor index r g b] }

/-- Host primitive registering a custom drawing callback for one frame/box
type (an absolute write into the global frame table). -/
def set_boxtype (s : HostState) (box drawer : Nat) : HostState :=
  { s with
    boxTable := fun b => if b = box then drawer else s.boxTable b,
    calls := s.calls ++ [HostCall.setBoxtype box drawer] }

/-- Host primitive `app::redraw`: request one global redraw. -/
def redraw (s : HostState) : HostState :=
  { s with redraws := s.redraws + 1, calls := s.calls ++ [HostCall.redraw] }

end app

/-- `ColorMap` from `src/lib.rs`: one override of a palette slot,
`(index, r, g, b)`; all four fields are `u8` in the source. -/
structure ColorMap where
  index : Nat
  r : Nat
  g : Nat
  b : Nat
  deriving DecidableEq, Repr

/-- Rust's `<[T]>::to_vec`: an element-for-element copy of the input slice
into owned storage. -/
def to_vec : List ColorMap → List ColorMap
  | [] => []
  | e :: rest => e :: to_vec rest

/-- `ColorTheme` from `src/lib.rs`: a tuple struct wrapping a `Vec` of
color maps (the Rust field `.0` is `colors` here). -/
structure ColorTheme where
  colors : List ColorMap
  deriving DecidableEq, Repr

/-- `ColorTheme::from_colormap`: copy the slice into owned storage. -/
def ColorTheme.from_colormap (map : List ColorMap) : ColorTheme :=
  ⟨to_vec map⟩

/-- `ColorTheme::new`: copy the slice into owned storage. -/
def ColorTheme.new (map : List ColorMap) : ColorTheme :=
  ⟨to_vec map⟩

/-- The loop body of `ColorTheme::apply`: `app::set_color` for every entry,
in slice order. -/
def applyColors (s : HostState) (l : List ColorMap) : HostState :=
  l.foldl (fun s e => app.set_color s e.index e.r e.g e.b) s

/-- `ColorTheme::apply` from `src/lib.rs`: for each entry call
`app::set_color(Color::by_index(index), r, g, b)` in slice order, then call
`app::redraw()`. -/
def ColorTheme.apply (t : ColorTheme) (s : HostState) : HostState :=
  app.redraw (applyColors s t.colors)

/-- The last entry of `l` whose `index` field is `i`, if any — the entry
whose RGB an overwriting left-to-right sweep leaves in palette slot `i`. -/
def lastFor : List ColorMap → Nat → Option ColorMap
  | [], _ => none
  | e :: rest, i =>
    match lastFor rest i with
    | some x => some x
    | none => if e.index = i then some e else none

@[simp] theorem to_vec_eq (l : List ColorMap) : to_vec l = l := by
  induction l with
  | nil => rfl
  | cons e rest ih => simp [to_vec, ih]

@[simp] theorem applyColors_nil (s : HostState) : applyColors s [] = s := rfl

theorem applyColors_cons (s : HostState) (e : ColorMap) (l : List ColorMap) :
    applyColors s (e :: l) = applyColors (app.set_color s e.index e.r e.g e.b) l := rfl

theorem applyColors_palette (l : List ColorMap) (s : HostState) (i : Nat) :
    (applyColors s l).palette i =
      match lastFor l i with
      | some e => (e.r, e.g, e.b)
      | none => s.palette i := by
  induction l generalizing s with
  | nil => rfl
  | cons e rest ih =>
    rw [applyColors_cons, ih]
    cases h : lastFor rest i with
    | some x => simp [lastFor, h]
    | none =>
      by_cases hi : e.index = i
      · simp [lastFor, h, hi, app.set_color]
      · have hi' : ¬ i = e.index := fun hh => hi hh.symm
        simp [lastFor, h, hi, hi', app.set_color]

theorem applyColors_boxTable (l : List ColorMap) (s : HostState) :
    (applyColors s l).boxTable = s.boxTable := by
  induction l generalizing s with
  | nil => rfl
  | cons e rest ih => rw [applyColors_cons, ih]; rfl

theorem applyColors_redraws (l : List ColorMap) (s : HostState) :
    (applyColors s l).redraws = s.redraws := by
  induction l generalizing s with
  | nil => rfl
  | cons e rest ih => rw [applyColors_cons, ih]; rfl

theorem applyColors_calls (l : List ColorMap) (s : HostState) :
    (applyColors s l).calls =
      s.calls ++ l.map (fun e => HostCall.setColor e.index e.r e.g e.b) := by
  induction l generalizing s with
  | nil => simp
  | cons e rest ih =>
    rw [applyColors_cons, ih]
    simp [app.set_color]

theorem lastFor_eq_none_iff (l : List ColorMap) (i : Nat) :
    lastFor l i = none ↔ ∀ e ∈ l, e.index ≠ i := by
  induction l with
  | nil => simp [lastFor]
  | cons e rest ih =>
    cases h : lastFor rest i with
    | some x =>
      simp only [lastFor, h]
      constructor
      · intro hc; exact absurd hc (by simp)
      · intro hall
        have : ∀ e ∈ rest, e.index ≠ i := fun x hx => hall x (List.mem_cons_of_mem _ hx)
        have : lastFor rest i = none := (ih).mpr this
        rw [h] at this; exact absurd this (by simp)
    | none =>
      by_cases hi : e.index = i
      · simp only [lastFor, h, hi]
        constructor
        · intro hc; exact absurd hc (by simp)
        · intro hall; exact absurd hi (hall e (List.mem_cons_self e rest))
      · simp only [lastFor, h, hi]
        constructor
        · intro _ x hx
          rcases List.mem_cons.mp hx with rfl | hx'
          · exact hi
          · exact (ih.mp h) x hx'
        · intro _; simp [hi]

theorem lastFor_eq_some (l : List ColorMap) (i : Nat) (e : ColorMap)
    (h : lastFor l i = some e) : e ∈ l ∧ e.index = i := by
  induction l with
  | nil => exact absurd h (by simp [lastFor])
  | cons a rest ih =>
    cases hr : lastFor rest i with
    | some x =>
      rw [lastFor, hr] at h
      obtain rfl : x = e := by simpa using h
      exact ⟨List.mem_cons_of_mem _ (ih hr).1, (ih hr).2⟩
    | none =>
      rw [lastFor, hr] at h
      by_cases hi : a.index = i
      · simp only [hi, if_pos rfl] at h
        obtain rfl : a = e := by simpa using h
        exact ⟨List.mem_cons_self a rest, hi⟩
      · simp [hi] at h

theorem lastFor_of_mem_nodup (l : List ColorMap) (i : Nat) (e : ColorMap)
    (hmem : e ∈ l) (hidx : e.index = i)
    (hnodup : (l.map ColorMap.index).Nodup) : lastFor l i = some e := by
  induction l with
  | nil => exact absurd hmem (List.not_mem_nil e)
  | cons a rest ih =>
    have hmapcons :
        List.map ColorMap.index (a :: rest) = a.index :: rest.map ColorMap.index := rfl
    rw [hmapcons, List.nodup_cons] at hnodup
    rcases List.mem_cons.mp hmem with rfl | hmem'
    · have hrest : lastFor rest i = none := by
        rw [lastFor_eq_none_iff]
        intro x hx hxi
        exact hnodup.1 (List.mem_map.mpr ⟨x, hx, hxi.trans hidx.symm⟩)
      rw [lastFor, hrest]
      simp [hidx]
    · rw [lastFor, ih hmem' hnodup.2]

/-- `activated_color` from `src/lib.rs`.  The host flag
`fltk::app::draw_frame_active()` and the host-owned derivation
`Color::inactive` live in the fltk dependency (spec §6 collaboration
boundary), so they enter as parameters; colors are the host's numeric color
values. -/
def activated_color (draw_frame_active : Bool) (inactive : Nat → Nat) (c : Nat) : Nat :=
  if draw_frame_active then c else inactive c

/-- `ThemeType` from `src/lib.rs`: the closed enumeration of supported
widget themes. -/
inductive ThemeType where
  | Classic
  | Aero
  | Metro
  | AquaClassic
  | Greybird
  | Blue
  | Dark
  | HighContrast
  deriving DecidableEq, Repr

/-- All values of the closed enumeration `ThemeType`, in declaration order. -/
def ThemeType.all : List ThemeType :=
  [.Classic, .Aero, .Metro, .AquaClassic, .Greybird, .Blue, .Dark, .HighContrast]

/-- The theme-specific procedures of the `widget_themes` modules, one
identifier per handler named in the `match` of `WidgetTheme::apply`. -/
inductive ThemeHandler where
  | use_classic_theme
  | use_aero_theme
  | use_aqua_classic_theme
  | use_dark_theme
  | use_high_contrast_theme
  | use_blue_theme
  | use_metro_theme
  | use_greybird_theme
  deriving DecidableEq, Repr

/-- `WidgetTheme` from `src/lib.rs`: wraps exactly one `ThemeType`. -/
structure WidgetTheme where
  theme : ThemeType
  deriving DecidableEq, Repr

/-- `WidgetTheme::new`. -/
def WidgetTheme.new (theme : ThemeType) : WidgetTheme :=
  ⟨theme⟩

/-- The dispatch `match` of `WidgetTheme::apply` from `src/lib.rs`, arm for
arm: which handler a given theme value is forwarded to. -/
def WidgetTheme.handler (w : WidgetTheme) : ThemeHandler :=
  match w.theme with
  | .Classic => .use_classic_theme
  | .Aero => .use_aero_theme
  | .AquaClassic => .use_aqua_classic_theme
  | .Dark => .use_dark_theme
  | .HighContrast => .use_high_contrast_theme
  | .Blue => .use_blue_theme
  | .Metro => .use_metro_theme
  | .Greybird => .use_greybird_theme

/-- `SchemeType` from `src/lib.rs`: the closed enumeration of supported
widget schemes. -/
inductive SchemeType where
  | Aqua
  | Clean
  | Crystal
  | Fluent
  | Gleam
  | SvgBased
  deriving DecidableEq, Repr

/-- The scheme-specific procedures of the `widget_schemes` modules, one
identifier per handler named in the `match` of `WidgetScheme::apply`. -/
inductive SchemeHandler where
  | use_aqua_scheme
  | use_clean_scheme
  | use_crystal_scheme
  | use_fluent_scheme
  | use_gleam_scheme
  | use_svg_based_scheme
  deriving DecidableEq, Repr

/-- `WidgetScheme` from `src/lib.rs`: wraps exactly one `SchemeType`. -/
structure WidgetScheme where
  scheme : SchemeType
  deriving DecidableEq, Repr

/-- `WidgetScheme::new`. -/
def WidgetScheme.new (scheme : SchemeType) : WidgetScheme :=
  ⟨scheme⟩

/-- The dispatch `match` of `WidgetScheme::apply` from `src/lib.rs`, arm for
arm. -/
def WidgetScheme.handler (w : WidgetScheme) : SchemeHandler :=
  match w.scheme with
  | .Aqua => .use_aqua_scheme
  | .Clean => .use_clean_scheme
  | .Crystal => .use_crystal_scheme
  | .Fluent => .use_fluent_scheme
  | .Gleam => .use_gleam_scheme
  | .SvgBased => .use_svg_based_scheme

/-- Interpret one logged host call as the corresponding state transformer. -/
def runCall (s : HostState) : HostCall → HostState
  | HostCall.setColor i r g b => app.set_color s i r g b
  | HostCall.setBoxtype b d => app.set_boxtype s b d
  | HostCall.redraw => app.redraw s

/-- Run a list of host calls left to right. -/
def run (s : HostState) (cs : List HostCall) : HostState :=
  cs.foldl runCall s

/-- The RGB of the last `setColor` call to palette index `i` in `cs`, if
any. -/
def lastColor : List HostCall → Nat → Option (Nat × Nat × Nat)
  | [], _ => none
  | c :: rest, i =>
    match lastColor rest i with
    | some v => some v
    | none =>
      match c with
      | HostCall.setColor j r g b => if j = i then some (r, g, b) else none
      | _ => none

/-- The drawer of the last `setBoxtype` call to box type `b` in `cs`, if
any. -/
def lastBox : List HostCall → Nat → Option Nat
  | [], _ => none
  | c :: rest, b =>
    match lastBox rest b with
    | some v => some v
    | none =>
      match c with
      | HostCall.setBoxtype j d => if j = b then some d else none
      | _ => none

@[simp] theorem run_nil (s : HostState) : run s [] = s := rfl

theorem run_cons (s : HostState) (c : HostCall) (cs : List HostCall) :
    run s (c :: cs) = run (runCall s c) cs := rfl

theorem run_palette (cs : List HostCall) (s : HostState) (i : Nat) :
    (run s cs).palette i = (lastColor cs i).getD (s.palette i) := by
  induction cs generalizing s with
  | nil => rfl
  | cons c rest ih =>
    rw [run_cons, ih]
    cases h : lastColor rest i with
    | some v => simp [lastColor, h]
    | none =>
      cases c with
      | setColor j r g b =>
        by_cases hj : j = i
        · simp [lastColor, h, hj, runCall, app.set_color]
        · have hj' : ¬ i = j := fun hh => hj hh.symm
          simp [lastColor, h, hj, hj', runCall, app.set_color]
      | setBoxtype j d => simp [lastColor, h, runCall, app.set_boxtype]
      | redraw => simp [lastColor, h, runCall, app.redraw]

theorem run_boxTable (cs : List HostCall) (s : HostState) (b : Nat) :
    (run s cs).boxTable b = (lastBox cs b).getD (s.boxTable b) := by
  induction cs generalizing s with
  | nil => rfl
  | cons c rest ih =>
    rw [run_cons, ih]
    cases h : lastBox rest b with
    | some v => simp [lastBox, h]
    | none =>
      cases c with
      | setColor j r g bb => simp [lastBox, h, runCall, app.set_color]
      | setBoxtype j d =>
        by_cases hj : j = b
        · simp [lastBox, h, hj, runCall, app.set_boxtype]
        · have hj' : ¬ b = j := fun hh => hj hh.symm
          simp [lastBox, h, hj, hj', runCall, app.set_boxtype]
      | redraw => simp [lastBox, h, runCall, app.redraw]

/-- Two host states agree on all process-wide styling state (the palette and
the frame/box registration table); redraw requests are events, not retained
styling state. -/
def stylingEq (s₁ s₂ : HostState) : Prop :=
  (∀ i, s₁.palette i = s₂.palette i) ∧ ∀ b, s₁.boxTable b = s₂.boxTable b

/-- Running the same call list twice leaves the same styling state as
running it once: every host call this crate makes is an absolute write (or a
redraw request), never a read-modify-write. -/
theorem run_run_stylingEq (cs : List HostCall) (s : HostState) :
    stylingEq (run (run s cs) cs) (run s cs) := by
  constructor
  · intro i
    rw [run_palette, run_palette]
    cases h : lastColor cs i with
    | some v => simp [h]
    | none => simp [h]
  · intro b
    rw [run_boxTable, run_boxTable]
    cases h : lastBox cs b with
    | some v => simp [h]
    | none => simp [h]

/-- Modelled from the spec: the bodies of the `widget_themes::*::use_*_theme`
handlers are not under `src/` (only their dispatch in `WidgetTheme::apply`
is).  Per spec §4.2 each handler (a) registers a custom drawing callback for
each of a fixed set of stock frame/box identifiers and (b) sets a fixed set
of global colors via the host's color-set primitive; the concrete per-handler
tables, absent from `src/`, are the parameters `frames` and `colors`. -/
def themeHandlerCalls (frames : List (Nat × Nat)) (colors : List ColorMap) :
    List HostCall :=
  frames.map (fun p => HostCall.setBoxtype p.1 p.2) ++
    colors.map (fun e => HostCall.setColor e.index e.r e.g e.b)

/-- `WidgetTheme::apply` acting on the host state: dispatch on the wrapped
`ThemeType` to its handler and run the handler's calls (handler bodies
table-parameterised, see `themeHandlerCalls`). -/
def WidgetTheme.applyOn (w : WidgetTheme)
    (frames : ThemeHandler → List (Nat × Nat))
    (colors : ThemeHandler → List ColorMap) (s : HostState) : HostState :=
  run s (themeHandlerCalls (frames w.handler) (colors w.handler))

/-- Modelled from the spec: the bodies of the `widget_schemes::*::use_*_scheme`
handlers are not under `src/`.  Per spec §4.3 each registers custom drawing
callbacks for the fixed set of stock frame/box identifiers and deliberately
leaves global colors untouched, so a scheme handler's trace consists of
frame-registration calls only; the concrete per-handler table, absent from
`src/`, is the parameter `frames`. -/
def schemeHandlerCalls (frames : List (Nat × Nat)) : List HostCall :=
  frames.map (fun p => HostCall.setBoxtype p.1 p.2)

/-- `WidgetScheme::apply` acting on the host state: dispatch on the wrapped
`SchemeType` to its handler and run the handler's calls (handler bodies
table-parameterised, see `schemeHandlerCalls`). -/
def WidgetScheme.applyOn (w : WidgetScheme)
    (frames : SchemeHandler → List (Nat × Nat)) (s : HostState) : HostState :=
  run s (schemeHandlerCalls (frames w.handler))

/-- A scheme handler's trace contains no color write to any palette index. -/
theorem lastColor_schemeHandlerCalls (frames : List (Nat × Nat)) (i : Nat) :
    lastColor (schemeHandlerCalls frames) i = none := by
  induction frames with
  | nil => rfl
  | cons p rest ih =>
    simp only [schemeHandlerCalls] at ih ⊢
    simp [lastColor, ih]

/-- `ColorTheme::apply` leaves in palette slot `i` the RGB of the last entry
with index `i`, or the prior value when no entry has index `i` (the trailing
`app::redraw` does not touch the palette). -/
theorem apply_palette (t : ColorTheme) (s : HostState) (i : Nat) :
    (t.apply s).palette i =
      match lastFor t.colors i with
      | some e => (e.r, e.g, e.b)
      | none => s.palette i :=
  applyColors_palette t.colors s i

/-- `ColorTheme::apply` never touches the frame/box registration table. -/
theorem apply_boxTable (t : ColorTheme) (s : HostState) :
    (t.apply s).boxTable = s.boxTable :=
  applyColors_boxTable t.colors s

/-- Claim C1: after `ColorTheme::apply`, the host palette at every index
present in the theme's map equals the (r,g,b) supplied for that index — the
last entry with that index, later entries overwriting earlier ones (spec §3)
— and every palette index not present in the map retains its prior value. -/
theorem colorTheme_apply_palette_spec (t : ColorTheme) (s : HostState) (i : Nat) :
    ((t.apply s).palette i =
      match lastFor t.colors i with
      | some e => (e.r, e.g, e.b)
      | none => s.palette i)
  ∧ ((∀ e ∈ t.colors, e.index ≠ i) → (t.apply s).palette i = s.palette i) := by
  refine ⟨apply_palette t s i, fun h => ?_⟩
  rw [apply_palette, (lastFor_eq_none_iff t.colors i).mpr h]

/-- Witness for C1, the scenario of spec §8: applying
`[{index:1,r:0,g:0,b:0}]` makes palette index 1 read back as (0,0,0) and
leaves the unmapped index 2 at its prior value. -/
theorem colorTheme_apply_palette_spec_witness :
    ((ColorTheme.new [⟨1, 0, 0, 0⟩]).apply initState).palette 1 = (0, 0, 0)
  ∧ ((ColorTheme.new [⟨1, 0, 0, 0⟩]).apply initState).palette 2 = initState.palette 2 :=
  ⟨(colorTheme_apply_palette_spec (ColorTheme.new [⟨1, 0, 0, 0⟩]) initState 1).1,
   (colorTheme_apply_palette_spec (ColorTheme.new [⟨1, 0, 0, 0⟩]) initState 2).2 (by decide)⟩

/-- Claim C2: `ColorTheme::new` and `ColorTheme::from_colormap` always
succeed and their inner vector (the Rust field `.0`, here `colors`) equals
the input slice element for element, order preserved. -/
theorem colorTheme_new_faithful (m : List ColorMap) :
    (ColorTheme.new m).colors = m ∧ (ColorTheme.from_colormap m).colors = m :=
  ⟨to_vec_eq m, to_vec_eq m⟩

/-- Claim C3: `ColorTheme::apply` makes exactly one `app::set_color` call
per entry of the theme's vector, with that entry's index and channels, in
slice order, and after all of them exactly one `app::redraw`; it is a total
function of the state with no other result. -/
theorem colorTheme_apply_trace (t : ColorTheme) (s : HostState) :
    ((t.apply s).calls =
      s.calls ++ t.colors.map (fun e => HostCall.setColor e.index e.r e.g e.b)
        ++ [HostCall.redraw])
  ∧ (t.apply s).redraws = s.redraws + 1 := by
  constructor
  · simp [ColorTheme.apply, app.redraw, applyColors_calls]
  · simp [ColorTheme.apply, app.redraw, applyColors_redraws]

/-- Claim C4: `WidgetTheme::new(T).apply()` dispatches every `ThemeType`
value to exactly one theme-specific handler: every variant of the closed
enumeration (listed in full by `ThemeType.all`) has its own arm, distinct
variants go to distinct handlers, and no variant lacks a handler, so the
match needs no default or error branch. -/
theorem widgetTheme_apply_dispatch :
    ((WidgetTheme.new ThemeType.Classic).handler = ThemeHandler.use_classic_theme
      ∧ (WidgetTheme.new ThemeType.Aero).handler = ThemeHandler.use_aero_theme
      ∧ (WidgetTheme.new ThemeType.AquaClassic).handler = ThemeHandler.use_aqua_classic_theme
      ∧ (WidgetTheme.new ThemeType.Dark).handler = ThemeHandler.use_dark_theme
      ∧ (WidgetTheme.new ThemeType.HighContrast).handler = ThemeHandler.use_high_contrast_theme
      ∧ (WidgetTheme.new ThemeType.Blue).handler = ThemeHandler.use_blue_theme
      ∧ (WidgetTheme.new ThemeType.Metro).handler = ThemeHandler.use_metro_theme
      ∧ (WidgetTheme.new ThemeType.Greybird).handler = ThemeHandler.use_greybird_theme)
  ∧ (ThemeType.all.map (fun T => (WidgetTheme.new T).handler)).Nodup
  ∧ ∀ T : ThemeType, T ∈ ThemeType.all := by
  refine ⟨by decide, by decide, fun T => ?_⟩
  cases T <;> decide

/-- Claim C5 counterexample: two themes holding the same entries (their
entry lists are permutations of each other) whose application leaves
different palette states at index 1: with two entries for the same index,
the order decides which write survives, so permutation invariance fails as
stated. -/
theorem colorTheme_perm_counterexample :
    (ColorTheme.new [⟨1, 255, 255, 255⟩, ⟨1, 0, 0, 0⟩]).colors.Perm
      (ColorTheme.new [⟨1, 0, 0, 0⟩, ⟨1, 255, 255, 255⟩]).colors
  ∧ ((ColorTheme.new [⟨1, 255, 255, 255⟩, ⟨1, 0, 0, 0⟩]).apply initState).palette 1
      ≠ ((ColorTheme.new [⟨1, 0, 0, 0⟩, ⟨1, 255, 255, 255⟩]).apply initState).palette 1 := by
  refine ⟨List.Perm.swap _ _ _, by decide⟩

/-- Claim C5 amended: when the theme's entries carry pairwise distinct
palette indices, the final palette state does not depend on the order of the
entries — applying any permutation of the same entries yields the same
palette at every index. -/
theorem colorTheme_apply_perm (A B : ColorTheme) (s : HostState)
    (hperm : A.colors.Perm B.colors)
    (hnodup : (A.colors.map ColorMap.index).Nodup) (i : Nat) :
    (A.apply s).palette i = (B.apply s).palette i := by
  have hndB : (B.colors.map ColorMap.index).Nodup :=
    (hperm.map ColorMap.index).nodup_iff.mp hnodup
  rw [apply_palette, apply_palette]
  by_cases hex : ∃ e ∈ A.colors, e.index = i
  · obtain ⟨e, he, hei⟩ := hex
    rw [lastFor_of_mem_nodup A.colors i e he hei hnodup,
      lastFor_of_mem_nodup B.colors i e (hperm.mem_iff.mp he) hei hndB]
  · push_neg at hex
    rw [(lastFor_eq_none_iff A.colors i).mpr hex,
      (lastFor_eq_none_iff B.colors i).mpr fun x hx => hex x (hperm.mem_iff.mpr hx)]

/-- Witness for the amended C5: two permuted themes with distinct indices
agree on palette slot 1 after application. -/
theorem colorTheme_apply_perm_witness :
    ((ColorTheme.new [⟨1, 10, 20, 30⟩, ⟨2, 1, 1, 1⟩]).apply initState).palette 1
      = ((ColorTheme.new [⟨2, 1, 1, 1⟩, ⟨1, 10, 20, 30⟩]).apply initState).palette 1 :=
  colorTheme_apply_perm (ColorTheme.new [⟨1, 10, 20, 30⟩, ⟨2, 1, 1, 1⟩])
    (ColorTheme.new [⟨2, 1, 1, 1⟩, ⟨1, 10, 20, 30⟩]) initState
    (List.Perm.swap _ _ _) (by decide) 1

/-- Claim C6: `apply` is idempotent on styling state for all three
theme/scheme types — a second identical application re-asserts the same
absolute writes, leaving the palette and frame/box table exactly as after
one application (redraw requests are events, not retained styling state). -/
theorem apply_idempotent :
    (∀ (t : ColorTheme) (s : HostState), stylingEq (t.apply (t.apply s)) (t.apply s))
  ∧ (∀ (w : WidgetTheme) (frames : ThemeHandler → List (Nat × Nat))
      (colors : ThemeHandler → List ColorMap) (s : HostState),
      stylingEq (w.applyOn frames colors (w.applyOn frames colors s))
        (w.applyOn frames colors s))
  ∧ (∀ (w : WidgetScheme) (frames : SchemeHandler → List (Nat × Nat)) (s : HostState),
      stylingEq (w.applyOn frames (w.applyOn frames s)) (w.applyOn frames s)) := by
  refine ⟨fun t s => ⟨fun i => ?_, fun b => ?_⟩,
    fun w frames colors s => run_run_stylingEq _ _,
    fun w frames s => run_run_stylingEq _ _⟩
  · have h1 := apply_palette t (t.apply s) i
    have h2 := apply_palette t s i
    cases h : lastFor t.colors i with
    | some e =>
      rw [h] at h1 h2
      simp only at h1 h2
      rw [h1, h2]
    | none =>
      rw [h] at h1
      simpa using h1
  · rw [apply_boxTable, apply_boxTable]

/-- Claim C7: last-writer-wins — when themes A and B map the same set of
palette indices, applying A and then B leaves the same styling state as
applying B alone, with no residual contribution from A. -/
theorem colorTheme_last_writer_wins (A B : ColorTheme) (s : HostState)
    (hslots : ∀ i, (∃ e ∈ A.colors, e.index = i) ↔ ∃ e ∈ B.colors, e.index = i) :
    stylingEq (B.apply (A.apply s)) (B.apply s) := by
  constructor
  · intro i
    have hB1 := apply_palette B (A.apply s) i
    have hB2 := apply_palette B s i
    cases h : lastFor B.colors i with
    | some e =>
      rw [h] at hB1 hB2
      simp only at hB1 hB2
      rw [hB1, hB2]
    | none =>
      rw [h] at hB1 hB2
      simp only at hB1 hB2
      rw [hB1, hB2]
      have hnoneB : ∀ e ∈ B.colors, e.index ≠ i := (lastFor_eq_none_iff B.colors i).mp h
      have hnoneA : ∀ e ∈ A.colors, e.index ≠ i := by
        intro x hx hxi
        obtain ⟨y, hy, hyi⟩ := (hslots i).mp ⟨x, hx, hxi⟩
        exact hnoneB y hy hyi
      have hA := apply_palette A s i
      rw [(lastFor_eq_none_iff A.colors i).mpr hnoneA] at hA
      simpa using hA
  · intro b
    rw [apply_boxTable, apply_boxTable, apply_boxTable]

/-- Witness for C7: overwriting slot 1 with (5,5,5) and then applying a
theme that sets slot 1 to (9,9,9) leaves the same styling state as applying
the latter theme alone. -/
theorem colorTheme_last_writer_wins_witness :
    stylingEq
      ((ColorTheme.new [⟨1, 9, 9, 9⟩]).apply
        ((ColorTheme.new [⟨1, 5, 5, 5⟩]).apply initState))
      ((ColorTheme.new [⟨1, 9, 9, 9⟩]).apply initState) :=
  colorTheme_last_writer_wins (ColorTheme.new [⟨1, 5, 5, 5⟩])
    (ColorTheme.new [⟨1, 9, 9, 9⟩]) initState
    (fun i => by simp [ColorTheme.new, to_vec])

/-- Claim C8: for every `SchemeType`, `WidgetScheme::new(scheme).apply()`
registers frame/box drawing callbacks only: every palette slot keeps its
prior value, and the dispatched handler's trace contains no color-set call
at all. -/
theorem widgetScheme_apply_colors_untouched (sch : SchemeType)
    (frames : SchemeHandler → List (Nat × Nat)) (s : HostState) :
    (∀ i, ((WidgetScheme.new sch).applyOn frames s).palette i = s.palette i)
  ∧ ∀ c ∈ schemeHandlerCalls (frames (WidgetScheme.new sch).handler),
      ∀ j r g b, c ≠ HostCall.setColor j r g b := by
  constructor
  · intro i
    rw [WidgetScheme.applyOn, run_palette, lastColor_schemeHandlerCalls]
    rfl
  · intro c hc j r g b
    simp only [schemeHandlerCalls] at hc
    obtain ⟨p, hp, rfl⟩ := List.mem_map.mp hc
    simp

/-- Witness for C8: the Clean scheme with a one-entry frame table leaves
palette slot 0 at its prior value, and its sole trace element is a frame
registration, not a color write. -/
theorem widgetScheme_apply_colors_untouched_witness :
    ((WidgetScheme.new SchemeType.Clean).applyOn (fun _ => [(1, 42)]) initState).palette 0
      = initState.palette 0
  ∧ HostCall.setBoxtype 1 42 ≠ HostCall.setColor 0 0 0 0 :=
  ⟨(widgetScheme_apply_colors_untouched SchemeType.Clean (fun _ => [(1, 42)]) initState).1 0,
   (widgetScheme_apply_colors_untouched SchemeType.Clean (fun _ => [(1, 42)]) initState).2
     (HostCall.setBoxtype 1 42) (by decide) 0 0 0 0⟩

/-- Claim C9: `activated_color(c)` returns `c` unchanged when the host's
`draw_frame_active` flag is set and the host-derived `c.inactive()` when it
is not. -/
theorem activated_color_spec (flag : Bool) (inactive : Nat → Nat) (c : Nat) :
    (flag = true → activated_color flag inactive c = c)
  ∧ (flag = false → activated_color flag inactive c = inactive c) := by
  cases flag <;> simp [activated_color]

/-- Witness for C9 at a concrete host derivation and color. -/
theorem activated_color_spec_witness :
    activated_color true (fun n => n + 7) 5 = 5
  ∧ activated_color false (fun n => n + 7) 5 = 12 :=
  ⟨(activated_color_spec true (fun n => n + 7) 5).1 rfl,
   (activated_color_spec false (fun n => n + 7) 5).2 rfl⟩

/-- Claim C10: applying the empty color theme performs zero palette
assignments — its trace adds only the redraw call, every palette slot keeps
its prior value — and still issues exactly one redraw request. -/
theorem colorTheme_empty_apply (s : HostState) :
    ((ColorTheme.new []).apply s).calls = s.calls ++ [HostCall.redraw]
  ∧ (∀ i, ((ColorTheme.new []).apply s).palette i = s.palette i)
  ∧ ((ColorTheme.new []).apply s).redraws = s.redraws + 1 :=
  ⟨rfl, fun _ => rfl, rfl⟩

end FltkTheme
